import Mathlib

set_option maxHeartbeats 1000000

/- Shallow embedding of src/stuy_utils/schedule.py.

Dates are modelled as natural numbers (days since an epoch); adding one day
is successor.  Times of day are modelled as natural numbers (minutes since
midnight).  The calendar table TERM_DAYS is an association list from date to
the raw string cells of one row; the five bell-schedule tables are
association lists from period name to a Time record, in file order (Python
dicts preserve insertion order).  Python exceptions are modelled by the
Except monad with an explicit error type. -/

/-- Raw calendar row: the five string cells following the date in one
term-days row, exactly as stored (`Info(*row[1:])` before any decoding). -/
structure InfoRaw where
  school : String
  cycle : String
  schedule : String
  testing : String
  events : String
  deriving DecidableEq

/-- Decoded day information, the `Info` namedtuple as built by
`get_day_info`: `school` a boolean, the other four fields optional. -/
structure Info where
  school : Bool
  cycle : Option String
  schedule : Option String
  testing : Option String
  events : Option String
  deriving DecidableEq

/-- The `Time` namedtuple: start and end of a period, minutes since
midnight (`end` is a Lean keyword, hence the trailing underscore). -/
structure Time where
  start : Nat
  end_ : Nat
  deriving DecidableEq

/-- The TERM_DAYS table: date, then the raw row cells. -/
abbrev Cal := List (Nat × InfoRaw)

/-- One bell-schedule table: ordered mapping period name to Time. -/
abbrev BellSched := List (String × Time)

/-- Python exceptions and error returns that the embedded code can raise. -/
inductive Err where
  | DayNotInData : Nat → Err
  | InvalidDate : Err
  | attrNoneItems : Err
  | stopIteration : Err
  | indexOutOfRange : Err
  | keyError : Err
  | valueError : Err
  | typeErr : Err
  | NoScheduleAvailable : Err
  deriving DecidableEq

/-- Association-list lookup, first match wins (Python dict lookup). -/
def lookupA {α β : Type} [DecidableEq α] (a : α) : List (α × β) → Option β
  | [] => none
  | (k, v) :: rest => if a = k then some v else lookupA a rest

/-- Largest date key of the calendar (0 for the empty calendar); only used
to justify termination of the forward scan. -/
def maxKey (cal : Cal) : Nat := cal.foldr (fun p m => max p.1 m) 0

theorem lookupA_le_maxKey {cal : Cal} {d : Nat} {raw : InfoRaw}
    (h : lookupA d cal = some raw) : d ≤ maxKey cal := by
  induction cal with
  | nil => simp [lookupA] at h
  | cons p rest ih =>
    obtain ⟨k, v⟩ := p
    simp only [lookupA] at h
    by_cases hk : d = k
    · subst hk
      simp [maxKey, List.foldr]
    · rw [if_neg hk] at h
      have := ih h
      simp only [maxKey, List.foldr] at *
      omega

theorem lookupA_ne_none_le_maxKey {cal : Cal} {d : Nat}
    (h : ¬ lookupA d cal = none) : d ≤ maxKey cal := by
  cases hv : lookupA d cal with
  | none => exact absurd hv h
  | some raw => exact lookupA_le_maxKey hv

/-- `get_day_info`: looks the date up in TERM_DAYS, raising `DayNotInData`
when absent, and decodes the raw cells: `school` is the exact string
comparison with "True"; each other field is None exactly when the stored
string is "None", and the raw string otherwise. -/
def get_day_info (cal : Cal) (d : Nat) : Except Err Info :=
  match lookupA d cal with
  | none => .error (Err.DayNotInData d)
  | some raw =>
      .ok { school := if raw.school = "True" then true else false
            cycle := if raw.cycle = "None" then none else some raw.cycle
            schedule := if raw.schedule = "None" then none else some raw.schedule
            testing := if raw.testing = "None" then none else some raw.testing
            events := if raw.events = "None" then none else some raw.events }

/-- The `while` loop of `get_next_school_day`: the condition evaluates
`get_day_info(next_day).school is False` (so a date missing from TERM_DAYS
raises `DayNotInData` from `get_day_info` before the in-loop membership
check can run); the loop body's `return None` branch is kept verbatim even
though it is unreachable, and on loop exit the current date is returned. -/
def nextSchoolDayLoop (cal : Cal) (d : Nat) : Except Err (Option Nat) :=
  match get_day_info cal d with
  | .error e => .error e
  | .ok info =>
      if info.school = false then
        if hnone : lookupA d cal = none then .ok none
        else nextSchoolDayLoop cal (d + 1)
      else .ok (some d)
termination_by maxKey cal + 1 - d
decreasing_by
  have := lookupA_ne_none_le_maxKey hnone
  omega

/-- `get_next_school_day`: returns the date itself when the raw school cell
is exactly "True"; otherwise returns it when `always_same`; otherwise scans
forward from the next day. -/
def get_next_school_day (cal : Cal) (d : Nat) (always_same : Bool) :
    Except Err (Option Nat) :=
  match lookupA d cal with
  | none => .error (Err.DayNotInData d)
  | some raw =>
      if raw.school = "True" then .ok (some d)
      else if always_same then .ok (some d)
      else nextSchoolDayLoop cal (d + 1)

/-- The five module-level bell-schedule tables, under their source names. -/
structure BellTables where
  REGULAR_BELL_SCHEDULE : BellSched
  CONFERENCE_BELL_SCHEDULE : BellSched
  HOMEROOM_BELL_SCHEDULE : BellSched
  PTC_BELL_SCHEDULE : BellSched
  EXTENDED_HOMEROOM_BELL_SCHEDULE : BellSched
  deriving DecidableEq

/-- Whether the calendar marks the date as in session (raw cell exactly
"True"); false also for dates absent from the calendar. -/
def isSessionDay (cal : Cal) (d : Nat) : Bool :=
  match lookupA d cal with
  | some raw => if raw.school = "True" then true else false
  | none => false

theorem nextSchoolDayLoop_session (cal : Cal) :
    ∀ n d d2, maxKey cal + 1 - d ≤ n →
      nextSchoolDayLoop cal d = .ok (some d2) → isSessionDay cal d2 = true := by
  intro n
  induction n with
  | zero =>
    intro d d2 hle h
    have hd : lookupA d cal = none := by
      cases hv : lookupA d cal with
      | none => rfl
      | some raw => exact absurd (lookupA_le_maxKey hv) (by omega)
    unfold nextSchoolDayLoop get_day_info at h
    rw [hd] at h
    simp at h
  | succ n ih =>
    intro d d2 hle h
    unfold nextSchoolDayLoop at h
    cases hgd : get_day_info cal d with
    | error e => rw [hgd] at h; simp at h
    | ok info =>
      rw [hgd] at h
      simp only at h
      cases hsch : info.school with
      | false =>
        rw [hsch] at h
        simp only [if_pos rfl] at h
        by_cases hnone : lookupA d cal = none
        · rw [dif_pos hnone] at h
          simp at h
        · rw [dif_neg hnone] at h
          have hle2 : maxKey cal + 1 - (d + 1) ≤ n := by
            have := lookupA_ne_none_le_maxKey hnone
            omega
          exact ih (d + 1) d2 hle2 h
      | true =>
        rw [hsch] at h
        simp at h
        subst h
        unfold get_day_info at hgd
        cases hl : lookupA d cal with
        | none => rw [hl] at hgd; simp at hgd
        | some raw =>
          rw [hl] at hgd
          simp only [Except.ok.injEq] at hgd
          unfold isSessionDay
          rw [hl]
          rw [← hgd] at hsch
          simpa using hsch

theorem get_next_school_day_session {cal : Cal} {d d2 : Nat}
    (h : get_next_school_day cal d false = .ok (some d2)) :
    isSessionDay cal d2 = true := by
  unfold get_next_school_day at h
  cases hl : lookupA d cal with
  | none => rw [hl] at h; simp at h
  | some raw =>
    rw [hl] at h
    simp only at h
    by_cases hsc : raw.school = "True"
    · rw [if_pos hsc] at h
      simp at h
      subst h
      simp [isSessionDay, hl, hsc]
    · rw [if_neg hsc] at h
      simp only [Bool.false_eq_true, if_false] at h
      exact nextSchoolDayLoop_session cal (maxKey cal + 1 - (d + 1)) (d + 1) d2 le_rfl h

/-- `get_bell_schedule`: in-session days dispatch on the raw schedule cell
(the "None" guard first, then the five variant names, else None); non-school
days return None when `this_day`, and otherwise recurse through
`get_next_school_day` (whose dead `None` result would make the recursive
call raise `InvalidDate`, since `None` is not a date). -/
def get_bell_schedule (cal : Cal) (T : BellTables) (d : Nat)
    (this_day : Bool) : Except Err (Option BellSched) :=
  match hl : lookupA d cal with
  | none => .error (Err.DayNotInData d)
  | some raw =>
      if hsc : raw.school = "True" then
        if raw.schedule = "None" then .ok none
        else if raw.schedule = "Regular" then .ok (some T.REGULAR_BELL_SCHEDULE)
        else if raw.schedule = "Conference" then .ok (some T.CONFERENCE_BELL_SCHEDULE)
        else if raw.schedule = "Homeroom" then .ok (some T.HOMEROOM_BELL_SCHEDULE)
        else if raw.schedule = "PTC" then .ok (some T.PTC_BELL_SCHEDULE)
        else if raw.schedule = "Extended Homeroom" then .ok (some T.EXTENDED_HOMEROOM_BELL_SCHEDULE)
        else .ok none
      else
        if this_day then .ok none
        else
          match hnext : get_next_school_day cal d false with
          | .error e => .error e
          | .ok none => .error Err.InvalidDate
          | .ok (some d2) => get_bell_schedule cal T d2 false
termination_by (if isSessionDay cal d then 0 else 1 : Nat)
decreasing_by
  have h1 : isSessionDay cal d2 = true := get_next_school_day_session hnext
  have h2 : isSessionDay cal d = false := by
    simp [isSessionDay, hl, hsc]
  simp [h1, h2]

/-- Does `pat` begin the character list `s`. -/
def startsWithSeq : List Char → List Char → Bool
  | [], _ => true
  | _ :: _, [] => false
  | p :: ps, c :: cs => decide (p = c) && startsWithSeq ps cs

/-- Does `pat` occur contiguously inside the character list. -/
def seqContains (pat : List Char) : List Char → Bool
  | [] => startsWithSeq pat []
  | c :: cs => startsWithSeq pat (c :: cs) || seqContains pat cs

/-- Python's substring test `pat in s`. -/
def pyIn (pat s : String) : Bool := seqContains pat.data s.data

/-- The membership test of the `get_current_class` loop:
`item[1].start <= t <= item[1].end`, both ends inclusive. -/
def inPeriod (tm : Nat) (item : String × Time) : Bool :=
  decide (item.2.start ≤ tm) && decide (tm ≤ item.2.end_)

/-- `get_current_class`: resolves the bell schedule for the timestamp's
date (same-day flag left at its default False); calling `.items()` on a
None schedule is the AttributeError the original raises; otherwise the
first entry whose interval contains the time-of-day is returned, or None
when no entry matches. -/
def get_current_class (cal : Cal) (T : BellTables) (d tm : Nat) :
    Except Err (Option (String × Time)) :=
  match get_bell_schedule cal T d false with
  | .error e => .error e
  | .ok none => .error Err.attrNoneItems
  | .ok (some sched) => .ok (sched.find? (inPeriod tm))

/-- `get_next_class`: resolves the schedule and the current class; with no
current class, `next(iter(schedule.items()))` yields the head entry or
StopIteration on an empty schedule; with a current class at position
`index`, the last position returns None, and otherwise the entry at
`index + 1` is taken, or the one at `index + 2` when `skip_passing` and the
name at `index + 1` contains "Passing" (IndexError when that overruns). -/
def get_next_class (cal : Cal) (T : BellTables) (d tm : Nat)
    (skip_passing : Bool) : Except Err (Option (String × Time)) :=
  match get_bell_schedule cal T d false with
  | .error e => .error e
  | .ok schedOpt =>
      match get_current_class cal T d tm with
      | .error e => .error e
      | .ok current_class =>
          match schedOpt with
          | none => .error Err.attrNoneItems
          | some sched =>
              match current_class with
              | none =>
                  match sched with
                  | [] => .error Err.stopIteration
                  | item :: _ => .ok (some item)
              | some c =>
                  let keys := sched.map Prod.fst
                  match keys.findIdx? (fun k => decide (k = c.1)) with
                  | none => .error Err.valueError
                  | some index =>
                      if index = keys.length - 1 then .ok none
                      else
                        match keys.get? (index + 1) with
                        | none => .error Err.indexOutOfRange
                        | some next_class =>
                            if skip_passing && pyIn "Passing" next_class then
                              match keys.get? (index + 2) with
                              | none => .error Err.indexOutOfRange
                              | some next_class2 =>
                                  match lookupA next_class2 sched with
                                  | none => .error Err.keyError
                                  | some v => .ok (some (next_class2, v))
                            else
                              match lookupA next_class sched with
                              | none => .error Err.keyError
                              | some v => .ok (some (next_class, v))

/-- `get_current_period`: the name of the current class, or None. -/
def get_current_period (cal : Cal) (T : BellTables) (d tm : Nat) :
    Except Err (Option String) :=
  match get_current_class cal T d tm with
  | .error e => .error e
  | .ok none => .ok none
  | .ok (some current_class) => .ok (some current_class.1)

theorem bell_schedule_session {cal : Cal} {d : Nat} {raw : InfoRaw}
    (T : BellTables) (b : Bool)
    (hl : lookupA d cal = some raw) (hsc : raw.school = "True") :
    get_bell_schedule cal T d b = .ok
      (if raw.schedule = "None" then none
       else if raw.schedule = "Regular" then some T.REGULAR_BELL_SCHEDULE
       else if raw.schedule = "Conference" then some T.CONFERENCE_BELL_SCHEDULE
       else if raw.schedule = "Homeroom" then some T.HOMEROOM_BELL_SCHEDULE
       else if raw.schedule = "PTC" then some T.PTC_BELL_SCHEDULE
       else if raw.schedule = "Extended Homeroom" then
         some T.EXTENDED_HOMEROOM_BELL_SCHEDULE
       else none) := by
  unfold get_bell_schedule
  rw [hl]
  simp only
  rw [dif_pos hsc]
  split_ifs <;> rfl

theorem bell_schedule_offday_same {cal : Cal} {d : Nat} {raw : InfoRaw}
    (T : BellTables)
    (hl : lookupA d cal = some raw) (hsc : ¬ raw.school = "True") :
    get_bell_schedule cal T d true = .ok none := by
  unfold get_bell_schedule
  rw [hl]
  simp only
  rw [dif_neg hsc]
  simp

theorem bell_schedule_offday {cal : Cal} {d : Nat} {raw : InfoRaw}
    (T : BellTables)
    (hl : lookupA d cal = some raw) (hsc : ¬ raw.school = "True") :
    get_bell_schedule cal T d false =
      match get_next_school_day cal d false with
      | .error e => .error e
      | .ok none => .error Err.InvalidDate
      | .ok (some d2) => get_bell_schedule cal T d2 false := by
  conv_lhs => unfold get_bell_schedule
  rw [hl]
  simp only
  rw [dif_neg hsc]
  simp only [Bool.false_eq_true, if_false]
  split <;> rename_i heq <;> simp [heq]

/-- BellScheduleRegistry as the spec words it: an exact-name lookup of the
schedule variant in a fixed five-entry registry (this definition follows
the spec's words, to be compared with the source's dispatch). -/
def registryLookup (T : BellTables) (v : String) : Option BellSched :=
  lookupA v
    [("Regular", T.REGULAR_BELL_SCHEDULE),
     ("Conference", T.CONFERENCE_BELL_SCHEDULE),
     ("Homeroom", T.HOMEROOM_BELL_SCHEDULE),
     ("PTC", T.PTC_BELL_SCHEDULE),
     ("Extended Homeroom", T.EXTENDED_HOMEROOM_BELL_SCHEDULE)]

/-- An open file handle over already-split TSV rows; reading consumes it. -/
structure Handle where
  rows : List (List String)
  deriving DecidableEq

/-- `list(csv.reader(handle, delimiter="\t"))`: yields every remaining row
and leaves the handle at end of file. -/
def readAll (h : Handle) : List (List String) × Handle := (h.rows, ⟨[]⟩)

/-- One bell-schedule dict comprehension
`{row[0]: Time(*[conv(cell) for cell in row[1:]]) for row in rows}`: `conv`
abstracts `time.fromisoformat(convert_12h_to_24h(cell))` as minutes since
midnight; a row without exactly a name and two time cells makes the
`Time(*...)` call (or `row[0]`) raise. -/
def buildBell (conv : String → Nat) : List (List String) → Except Err BellSched
  | [] => .ok []
  | row :: rest =>
      match row with
      | [name, s, e] =>
          match buildBell conv rest with
          | .error er => .error er
          | .ok out => .ok ((name, ⟨conv s, conv e⟩) :: out)
      | _ => .error Err.typeErr

/-- The module-level load block (`with open(...) as ...`): only the
term-days, regular, conference and homeroom files are ever opened (the
ptc and extended-homeroom paths are defined but unused), and the five bell
tables are built in source order, with `PTC_BELL_SCHEDULE` and
`EXTENDED_HOMEROOM_BELL_SCHEDULE` reading from the homeroom handle again
after `HOMEROOM_BELL_SCHEDULE` has already consumed it.  The term-days
table is loaded by the same block but is independent of the bell tables
and is modelled by the `Cal` parameter elsewhere. -/
def loadBellTables (conv : String → Nat)
    (regularF conferenceF homeroomF : List (List String)) :
    Except Err BellTables :=
  let regular_tsv : Handle := ⟨regularF⟩
  let conference_tsv : Handle := ⟨conferenceF⟩
  let homeroom_tsv : Handle := ⟨homeroomF⟩
  let p1 := readAll regular_tsv
  match buildBell conv (p1.1.drop 1) with
  | .error e => .error e
  | .ok reg =>
      let p2 := readAll conference_tsv
      match buildBell conv (p2.1.drop 1) with
      | .error e => .error e
      | .ok conf =>
          let p3 := readAll homeroom_tsv
          match buildBell conv (p3.1.drop 1) with
          | .error e => .error e
          | .ok hr =>
              let p4 := readAll p3.2
              match buildBell conv (p4.1.drop 1) with
              | .error e => .error e
              | .ok ptc =>
                  let p5 := readAll p4.2
                  match buildBell conv (p5.1.drop 1) with
                  | .error e => .error e
                  | .ok ext => .ok ⟨reg, conf, hr, ptc, ext⟩

/-- A one-entry calendar: day 0 is a non-school day; day 1 is absent, so
the forward scan's first candidate is already past the calendar horizon. -/
def horizonCal : Cal := [(0, ⟨"False", "None", "None", "None", "None"⟩)]

/-- A one-entry calendar: day 0 is in session with schedule cell "None",
so the bell-schedule resolution yields None. -/
def noVariantCal : Cal := [(0, ⟨"True", "A1", "None", "None", "None"⟩)]

/-- A one-entry calendar: day 0 is in session on the Regular schedule. -/
def sessionCal : Cal := [(0, ⟨"True", "A1", "Regular", "None", "None"⟩)]

/-- A one-entry calendar: day 0 is in session on the PTC schedule. -/
def ptcCal : Cal := [(0, ⟨"True", "A1", "PTC", "None", "None"⟩)]

/-- A three-period schedule whose middle entry is a passing period (the
entry after the first period is second-to-last). -/
def passSched : BellSched :=
  [("A", ⟨100, 200⟩), ("Passing 1", ⟨200, 205⟩), ("B", ⟨205, 300⟩)]

/-- Tables whose Regular entry is `passSched` and whose PTC table is
empty. -/
def passTables : BellTables := ⟨passSched, [], [], [], []⟩

/-- Modelled from the spec: concrete contents for the three opened data
files (the repository's data/*.tsv files are not under src); a header row
followed by one period row per line, in the shape the loader consumes. -/
def regularFile : List (List String) :=
  [["Period", "Start", "End"],
   ["HR", "8:00 AM", "8:20 AM"],
   ["P1", "8:25 AM", "9:10 AM"]]

/-- Modelled from the spec: a conference file distinct from the homeroom
file. -/
def conferenceFile : List (List String) :=
  [["Period", "Start", "End"],
   ["C Band", "9:00 AM", "9:40 AM"]]

/-- Modelled from the spec: the homeroom file. -/
def homeroomFile : List (List String) :=
  [["Period", "Start", "End"],
   ["HR", "8:00 AM", "8:30 AM"]]

/-- Modelled from the spec: the 12-hour-to-minutes conversion, tabulated
on the literals appearing in the concrete files. -/
def convFix (s : String) : Nat :=
  if s = "8:00 AM" then 480
  else if s = "8:20 AM" then 500
  else if s = "8:25 AM" then 505
  else if s = "9:10 AM" then 550
  else if s = "9:00 AM" then 540
  else if s = "9:40 AM" then 580
  else if s = "8:30 AM" then 510
  else 0

/-- The tables the loader produces on the concrete files: PTC and
Extended Homeroom come out empty. -/
def loadedTables : BellTables :=
  ⟨[("HR", ⟨480, 500⟩), ("P1", ⟨505, 550⟩)],
   [("C Band", ⟨540, 580⟩)],
   [("HR", ⟨480, 510⟩)],
   [], []⟩

/-- C1: at the calendar horizon (non-school day 0, day 1 absent from the
calendar), `get_next_school_day` raises `DayNotInData` for the first
scanned candidate instead of returning None: the `while` condition calls
`get_day_info` before the in-loop membership check, so the claim's
"returns None immediately" branch is dead code. -/
theorem c1_horizon_scan_raises :
    get_next_school_day horizonCal 0 false = .error (Err.DayNotInData 1) := by
  have h1 : nextSchoolDayLoop horizonCal 1 = .error (Err.DayNotInData 1) := by
    unfold nextSchoolDayLoop
    rw [show get_day_info horizonCal 1 = .error (Err.DayNotInData 1) from rfl]
  unfold get_next_school_day
  rw [show lookupA 0 horizonCal
        = some ⟨"False", "None", "None", "None", "None"⟩ from rfl]
  simp only
  rw [if_neg (by decide)]
  simpa using h1

/-- C2: when the bell-schedule resolution yields None (in-session day with
schedule cell "None"), `get_current_class` fails with the
AttributeError-on-None fault of `schedule.items()`, which is not the
`NoScheduleAvailable` failure the claim describes. -/
theorem c2_null_schedule_attr_fault :
    get_bell_schedule noVariantCal passTables 0 false = .ok none ∧
    get_current_class noVariantCal passTables 0 100 = .error Err.attrNoneItems ∧
    Err.attrNoneItems ≠ Err.NoScheduleAvailable := by
  have hb : get_bell_schedule noVariantCal passTables 0 false = .ok none := by
    rw [bell_schedule_session passTables false
        (show lookupA 0 noVariantCal
            = some ⟨"True", "A1", "None", "None", "None"⟩ from rfl) rfl]
    rfl
  refine ⟨hb, ?_, by decide⟩
  unfold get_current_class
  rw [hb]

/-- C4: for a non-school day at the calendar horizon, `get_bell_schedule`
with same-day False raises `DayNotInData` propagated from the forward
scan instead of propagating None (the claim's null-propagation branch is
unreachable: the scan never returns None, and if it did the recursive
call on None would raise `InvalidDate`). -/
theorem c4_horizon_bell_raises :
    get_bell_schedule horizonCal passTables 0 false
      = .error (Err.DayNotInData 1) := by
  have h1 : get_next_school_day horizonCal 0 false
      = .error (Err.DayNotInData 1) := by
    have h0 : nextSchoolDayLoop horizonCal 1 = .error (Err.DayNotInData 1) := by
      unfold nextSchoolDayLoop
      rw [show get_day_info horizonCal 1 = .error (Err.DayNotInData 1) from rfl]
    unfold get_next_school_day
    rw [show lookupA 0 horizonCal
          = some ⟨"False", "None", "None", "None", "None"⟩ from rfl]
    simp only
    rw [if_neg (by decide)]
    simpa using h0
  rw [bell_schedule_offday passTables
      (show lookupA 0 horizonCal
          = some ⟨"False", "None", "None", "None", "None"⟩ from rfl)
      (by decide)]
  rw [h1]

/-- C9: when the resolved bell schedule is the empty mapping,
`get_next_class` finds no current period and then faults with the
StopIteration of `next(iter(schedule.items()))` instead of returning a
value, for either value of skip_passing. -/
theorem c9_empty_schedule_stop_iteration {cal : Cal} {T : BellTables}
    {d tm : Nat}
    (hb : get_bell_schedule cal T d false = .ok (some [])) (b : Bool) :
    get_next_class cal T d tm b = .error Err.stopIteration := by
  have hcc : get_current_class cal T d tm = .ok none := by
    unfold get_current_class
    rw [hb]
    rfl
  unfold get_next_class
  rw [hb, hcc]

/-- C9 witness: day 0 of `ptcCal` resolves to the empty PTC table and
`get_next_class` faults with StopIteration there. -/
theorem c9_witness :
    get_bell_schedule ptcCal passTables 0 false = .ok (some []) ∧
    get_next_class ptcCal passTables 0 100 false = .error Err.stopIteration := by
  have hb : get_bell_schedule ptcCal passTables 0 false = .ok (some []) := by
    rw [bell_schedule_session passTables false
        (show lookupA 0 ptcCal
            = some ⟨"True", "A1", "PTC", "None", "None"⟩ from rfl) rfl]
    rfl
  exact ⟨hb, c9_empty_schedule_stop_iteration hb false⟩

/-- C3 counterexample: with a current period, skip_passing True, and the
following entry named "Passing 1" sitting second-to-last, `get_next_class`
returns the last entry rather than the None the claim asserts (taking the
entry two positions ahead lands exactly on the last index, in bounds). -/
theorem c3_counterexample :
    get_current_class sessionCal passTables 0 150
      = .ok (some ("A", ⟨100, 200⟩)) ∧
    pyIn "Passing" "Passing 1" = true ∧
    get_next_class sessionCal passTables 0 150 true
      = .ok (some ("B", ⟨205, 300⟩)) := by
  refine ⟨?_, by decide, ?_⟩
  · unfold get_current_class
    rw [bell_schedule_session passTables false
        (show lookupA 0 sessionCal
            = some ⟨"True", "A1", "Regular", "None", "None"⟩ from rfl) rfl]
    rfl
  · unfold get_next_class get_current_class
    rw [bell_schedule_session passTables false
        (show lookupA 0 sessionCal
            = some ⟨"True", "A1", "Regular", "None", "None"⟩ from rfl) rfl]
    rfl

/-- C3 amended: with a current period whose following entry contains
"Passing" and is the second-to-last entry, `get_next_class` with
skip_passing True returns the entry two positions ahead, the last entry of
the schedule, rather than None or an out-of-range fault. -/
theorem c3_skip_passing_second_to_last {cal : Cal} {T : BellTables}
    {d tm : Nat} {sched : BellSched} {c : String × Time} {index : Nat}
    {nk nk2 : String} {v : Time}
    (hb : get_bell_schedule cal T d false = .ok (some sched))
    (hc : get_current_class cal T d tm = .ok (some c))
    (hidx : (sched.map Prod.fst).findIdx? (fun k => decide (k = c.1))
        = some index)
    (hlen : (sched.map Prod.fst).length = index + 3)
    (hnk : (sched.map Prod.fst).get? (index + 1) = some nk)
    (hpass : pyIn "Passing" nk = true)
    (hnk2 : (sched.map Prod.fst).get? (index + 2) = some nk2)
    (hv : lookupA nk2 sched = some v) :
    get_next_class cal T d tm true = .ok (some (nk2, v)) := by
  unfold get_next_class
  rw [hb, hc]
  simp only
  rw [hidx]
  simp only
  rw [hlen, if_neg (by omega)]
  rw [hnk]
  simp only
  rw [if_pos (by simp [hpass])]
  rw [hnk2]
  simp only
  rw [hv]

/-- C3 witness: the amended theorem applied to the concrete schedule with
"A", "Passing 1", "B". -/
theorem c3_witness :
    get_bell_schedule sessionCal passTables 0 false = .ok (some passSched) ∧
    get_next_class sessionCal passTables 0 150 true
      = .ok (some ("B", ⟨205, 300⟩)) := by
  have hb : get_bell_schedule sessionCal passTables 0 false
      = .ok (some passSched) := by
    rw [bell_schedule_session passTables false
        (show lookupA 0 sessionCal
            = some ⟨"True", "A1", "Regular", "None", "None"⟩ from rfl) rfl]
    rfl
  have hc : get_current_class sessionCal passTables 0 150
      = .ok (some ("A", ⟨100, 200⟩)) := by
    unfold get_current_class
    rw [hb]
    rfl
  exact ⟨hb, c3_skip_passing_second_to_last hb hc rfl rfl rfl (by decide) rfl rfl⟩

/-- C6: when the bell-schedule resolution yields a schedule,
`get_current_class` returns precisely the first entry in schedule order
whose closed interval contains the time-of-day, and None exactly when no
entry's interval contains it. -/
theorem c6_current_class_first_match {cal : Cal} {T : BellTables}
    {d tm : Nat} {sched : BellSched}
    (h : get_bell_schedule cal T d false = .ok (some sched)) :
    (∀ it : String × Time,
        get_current_class cal T d tm = .ok (some it) ↔
          inPeriod tm it = true ∧
          ∃ l1 l2, sched = l1 ++ it :: l2 ∧ ∀ x ∈ l1, inPeriod tm x = false) ∧
    (get_current_class cal T d tm = .ok none ↔
        ∀ x ∈ sched, inPeriod tm x = false) := by
  have hcc : get_current_class cal T d tm
      = .ok (sched.find? (inPeriod tm)) := by
    unfold get_current_class
    rw [h]
  constructor
  · intro it
    rw [hcc]
    simp only [Except.ok.injEq]
    rw [List.find?_eq_some]
    simp
  · rw [hcc]
    simp only [Except.ok.injEq]
    rw [List.find?_eq_none]
    simp

/-- C6 witness: on the concrete Regular day, at a time contained in no
period, `get_current_class` returns None. -/
theorem c6_witness :
    get_bell_schedule sessionCal passTables 0 false = .ok (some passSched) ∧
    (get_current_class sessionCal passTables 0 999 = .ok none ↔
        ∀ x ∈ passSched, inPeriod 999 x = false) := by
  have hb : get_bell_schedule sessionCal passTables 0 false
      = .ok (some passSched) := by
    rw [bell_schedule_session passTables false
        (show lookupA 0 sessionCal
            = some ⟨"True", "A1", "Regular", "None", "None"⟩ from rfl) rfl]
    rfl
  exact ⟨hb, (c6_current_class_first_match hb).2⟩

/-- C7: on an in-session day the bell-schedule dispatch coincides with an
exact-name lookup in the fixed five-entry registry, for either value of
the same-day flag; any variant outside the five names (including "None")
yields None rather than an error. -/
theorem c7_variant_exact_match {cal : Cal} {d : Nat} {raw : InfoRaw}
    (T : BellTables) (b : Bool)
    (hl : lookupA d cal = some raw) (hsc : raw.school = "True") :
    get_bell_schedule cal T d b = .ok (registryLookup T raw.schedule) ∧
    (raw.schedule ∉ (["Regular", "Conference", "Homeroom", "PTC",
        "Extended Homeroom"] : List String) →
      get_bell_schedule cal T d b = .ok none) := by
  have key : get_bell_schedule cal T d b
      = .ok (registryLookup T raw.schedule) := by
    rw [bell_schedule_session T b hl hsc]
    unfold registryLookup
    by_cases h0 : raw.schedule = "None"
    · rw [h0]; rfl
    · by_cases h1 : raw.schedule = "Regular"
      · rw [h1]; rfl
      · by_cases h2 : raw.schedule = "Conference"
        · rw [h2]; rfl
        · by_cases h3 : raw.schedule = "Homeroom"
          · rw [h3]; rfl
          · by_cases h4 : raw.schedule = "PTC"
            · rw [h4]; rfl
            · by_cases h5 : raw.schedule = "Extended Homeroom"
              · rw [h5]; rfl
              · simp [lookupA, h0, h1, h2, h3, h4, h5]
  refine ⟨key, fun hnot => ?_⟩
  rw [key]
  simp only [List.mem_cons, List.not_mem_nil, or_false] at hnot
  push_neg at hnot
  obtain ⟨n1, n2, n3, n4, n5⟩ := hnot
  simp [registryLookup, lookupA, n1, n2, n3, n4, n5]

/-- C7 witness: the Regular variant of the concrete in-session day
resolves through the registry. -/
theorem c7_witness :
    lookupA 0 sessionCal = some ⟨"True", "A1", "Regular", "None", "None"⟩ ∧
    get_bell_schedule sessionCal passTables 0 false
      = .ok (registryLookup passTables "Regular") :=
  ⟨rfl, (c7_variant_exact_match passTables false
    (show lookupA 0 sessionCal
        = some ⟨"True", "A1", "Regular", "None", "None"⟩ from rfl) rfl).1⟩

/-- C8: a day decoded as in-session is returned unchanged by
`get_next_school_day` for either value of always_same, and a non-session
day is returned unchanged when always_same is True (no forward search). -/
theorem c8_always_same_asymmetry {cal : Cal} {d : Nat} {info : Info}
    (hgd : get_day_info cal d = .ok info) :
    (info.school = true →
        ∀ b, get_next_school_day cal d b = .ok (some d)) ∧
    (info.school = false →
        get_next_school_day cal d true = .ok (some d)) := by
  unfold get_day_info at hgd
  cases hl : lookupA d cal with
  | none => rw [hl] at hgd; simp at hgd
  | some raw =>
    rw [hl] at hgd
    simp only [Except.ok.injEq] at hgd
    subst hgd
    constructor
    · intro hs b
      simp only at hs
      have hsc : raw.school = "True" := by
        by_contra hcon
        rw [if_neg hcon] at hs
        cases hs
      unfold get_next_school_day
      rw [hl]
      simp only
      rw [if_pos hsc]
    · intro hs
      unfold get_next_school_day
      rw [hl]
      simp only
      by_cases hsc : raw.school = "True"
      · rw [if_pos hsc]
      · rw [if_neg hsc]
        simp

/-- C8 witness: the concrete in-session day 0 is returned unchanged with
always_same False. -/
theorem c8_witness :
    get_day_info sessionCal 0
      = .ok ⟨true, some "A1", some "Regular", none, none⟩ ∧
    get_next_school_day sessionCal 0 false = .ok (some 0) :=
  ⟨rfl, (c8_always_same_asymmetry
    (show get_day_info sessionCal 0
        = .ok ⟨true, some "A1", some "Regular", none, none⟩ from rfl)).1
    rfl false⟩

/-- C10: `get_day_info` decodes the stored strings exactly: the school
flag is true iff the cell is the exact string "True", and each optional
field is None iff its cell is the exact string "None", the raw string
surviving unchanged otherwise. -/
theorem c10_day_info_decoding {cal : Cal} {d : Nat} {raw : InfoRaw}
    {info : Info}
    (hl : lookupA d cal = some raw) (hgd : get_day_info cal d = .ok info) :
    (info.school = true ↔ raw.school = "True") ∧
    (info.cycle = none ↔ raw.cycle = "None") ∧
    (raw.cycle ≠ "None" → info.cycle = some raw.cycle) ∧
    (info.schedule = none ↔ raw.schedule = "None") ∧
    (raw.schedule ≠ "None" → info.schedule = some raw.schedule) ∧
    (info.testing = none ↔ raw.testing = "None") ∧
    (raw.testing ≠ "None" → info.testing = some raw.testing) ∧
    (info.events = none ↔ raw.events = "None") ∧
    (raw.events ≠ "None" → info.events = some raw.events) := by
  unfold get_day_info at hgd
  rw [hl] at hgd
  simp only [Except.ok.injEq] at hgd
  subst hgd
  refine ⟨?_, ?_, ?_, ?_, ?_, ?_, ?_, ?_, ?_⟩
  · by_cases h : raw.school = "True" <;> simp [h]
  · by_cases h : raw.cycle = "None" <;> simp [h]
  · intro h; simp [h]
  · by_cases h : raw.schedule = "None" <;> simp [h]
  · intro h; simp [h]
  · by_cases h : raw.testing = "None" <;> simp [h]
  · intro h; simp [h]
  · by_cases h : raw.events = "None" <;> simp [h]
  · intro h; simp [h]

/-- C10 witness: the decoding facts at the concrete Regular day. -/
theorem c10_witness :
    get_day_info sessionCal 0
      = .ok ⟨true, some "A1", some "Regular", none, none⟩ ∧
    ((some "A1" : Option String) = none ↔ ("A1" : String) = "None") :=
  ⟨rfl, (c10_day_info_decoding
    (show lookupA 0 sessionCal
        = some ⟨"True", "A1", "Regular", "None", "None"⟩ from rfl)
    (show get_day_info sessionCal 0
        = .ok ⟨true, some "A1", some "Regular", none, none⟩ from rfl)).2.1⟩

/-- C5 counterexample: on concrete distinct source files, the loaded
Conference table differs from the Homeroom table (it comes from its own
file), and the PTC and Extended Homeroom tables come out empty (the
homeroom handle is already exhausted), hence also differ from Homeroom. -/
theorem c5_counterexample :
    loadBellTables convFix regularFile conferenceFile homeroomFile
      = .ok loadedTables ∧
    loadedTables.CONFERENCE_BELL_SCHEDULE
      ≠ loadedTables.HOMEROOM_BELL_SCHEDULE ∧
    loadedTables.PTC_BELL_SCHEDULE ≠ loadedTables.HOMEROOM_BELL_SCHEDULE ∧
    loadedTables.EXTENDED_HOMEROOM_BELL_SCHEDULE
      ≠ loadedTables.HOMEROOM_BELL_SCHEDULE :=
  ⟨rfl, by decide, by decide, by decide⟩

/-- C5 amended: whenever the module load succeeds, Regular, Conference and
Homeroom are each built from their own source file, while PTC and
Extended Homeroom are built from the homeroom handle after it has been
exhausted and are therefore empty. -/
theorem c5_exhausted_handles {conv : String → Nat}
    {rF cF hF : List (List String)} {T : BellTables}
    (h : loadBellTables conv rF cF hF = .ok T) :
    T.PTC_BELL_SCHEDULE = [] ∧ T.EXTENDED_HOMEROOM_BELL_SCHEDULE = [] ∧
    buildBell conv (rF.drop 1) = .ok T.REGULAR_BELL_SCHEDULE ∧
    buildBell conv (cF.drop 1) = .ok T.CONFERENCE_BELL_SCHEDULE ∧
    buildBell conv (hF.drop 1) = .ok T.HOMEROOM_BELL_SCHEDULE := by
  unfold loadBellTables readAll at h
  dsimp only at h
  cases h1 : buildBell conv (rF.drop 1) with
  | error e => rw [h1] at h; simp at h
  | ok reg =>
    rw [h1] at h
    dsimp only at h
    cases h2 : buildBell conv (cF.drop 1) with
    | error e => rw [h2] at h; simp at h
    | ok conf =>
      rw [h2] at h
      dsimp only at h
      cases h3 : buildBell conv (hF.drop 1) with
      | error e => rw [h3] at h; simp at h
      | ok hr =>
        rw [h3] at h
        simp only [List.drop_nil, buildBell] at h
        simp only [Except.ok.injEq] at h
        subst h
        exact ⟨rfl, rfl, rfl, rfl, rfl⟩

/-- C5 witness: the amended load facts at the concrete files. -/
theorem c5_witness :
    loadBellTables convFix regularFile conferenceFile homeroomFile
      = .ok loadedTables ∧
    (loadedTables.PTC_BELL_SCHEDULE = [] ∧
     loadedTables.EXTENDED_HOMEROOM_BELL_SCHEDULE = [] ∧
     buildBell convFix (regularFile.drop 1)
       = .ok loadedTables.REGULAR_BELL_SCHEDULE ∧
     buildBell convFix (conferenceFile.drop 1)
       = .ok loadedTables.CONFERENCE_BELL_SCHEDULE ∧
     buildBell convFix (homeroomFile.drop 1)
       = .ok loadedTables.HOMEROOM_BELL_SCHEDULE) :=
  ⟨rfl, c5_exhausted_handles rfl⟩
